import Mathlib

/-!
Verification of the rectangle-partitioning layout engine, container widgets
and compositor of the rpi5-oled repository.

The embedding mirrors `src/layout/grid.py`, `src/layout/containers.py` and
`src/display.py`:

* Python `int` is modelled as `Int` (arbitrary precision in both).
* Python `float` size fractions are modelled as exact rationals `ℚ`.
  Python `int(x)` (truncation toward zero) is `pyInt`, Python `//`
  (floor division) is `pyDiv`.
* Python `dict` is an insertion-ordered association list: assigning to an
  existing key replaces the value in place (keeping the key position),
  assigning a fresh key appends it.  This matches CPython dict semantics,
  which determine the compositor paint order.
* Exceptions are modelled with `Except`; methods that can leave the object
  mutated before raising return the (possibly mutated) state alongside the
  `Except` outcome.
* Error message strings follow the source but drop the quote characters
  around interpolated names.
-/

-- `Rat.mul`, `Rat.add`, `Rat.sub` and `Rat.inv` are irreducible in Batteries;
-- making them semireducible lets concrete rational computations in witnesses
-- be checked by kernel reduction.
unseal Rat.mul Rat.add Rat.sub Rat.inv

/-- A pixel rectangle `(x, y, width, height)`, as the `Rect` tuple alias of
`src/layout/grid.py`. -/
structure Rect where
  x : Int
  y : Int
  w : Int
  h : Int
deriving DecidableEq

/-- Model of `GridArea` from `src/layout/grid.py`: a named rectangle with a list of
children.  The source stores child objects; we record their names, which is
all the child list is consulted for in the verified claims. -/
structure GridArea where
  name : String
  rect : Rect
  children : List String
deriving DecidableEq

/-- Model of `GridArea.contains_point` from the source. -/
def GridArea.contains_point (a : GridArea) (px py : Int) : Bool :=
  decide (a.rect.x ≤ px) && decide (px < a.rect.x + a.rect.w) &&
    decide (a.rect.y ≤ py) && decide (py < a.rect.y + a.rect.h)

/-- Python exceptions raised by the modelled code. -/
inductive PyErr where
  | valueError (msg : String)
  | keyError (msg : String)
  | zeroDivisionError
deriving DecidableEq

instance {ε α : Type} [DecidableEq ε] [DecidableEq α] : DecidableEq (Except ε α) :=
  fun x y =>
    match x, y with
    | .ok a, .ok b => if h : a = b then .isTrue (by rw [h]) else .isFalse (by simp [h])
    | .error a, .error b => if h : a = b then .isTrue (by rw [h]) else .isFalse (by simp [h])
    | .ok _, .error _ => .isFalse (by simp)
    | .error _, .ok _ => .isFalse (by simp)

/-- Insertion-ordered dictionary assignment `d[k] = v`: replaces in place if
the key exists, appends otherwise (CPython dict semantics). -/
def dictInsert {α : Type} (d : List (String × α)) (k : String) (v : α) :
    List (String × α) :=
  match d with
  | [] => [(k, v)]
  | (k', v') :: rest =>
    if k' = k then (k, v) :: rest else (k', v') :: dictInsert rest k v

/-- Lookup `d.get(k)` / `d[k]` on a dictionary. -/
def dictGet? {α : Type} (d : List (String × α)) (k : String) : Option α :=
  match d with
  | [] => none
  | (k', v') :: rest => if k' = k then some v' else dictGet? rest k

/-- In-place mutation of the value stored under a key (models Python code
that calls a mutating method on `d[k]`). -/
def dictUpdate {α : Type} (d : List (String × α)) (k : String) (f : α → α) :
    List (String × α) :=
  match d with
  | [] => []
  | (k', v') :: rest =>
    if k' = k then (k', f v') :: rest else (k', v') :: dictUpdate rest k f

/-- Python `int(q)`: truncation toward zero. -/
def pyInt (q : ℚ) : Int := if 0 ≤ q then ⌊q⌋ else ⌈q⌉

/-- Python `abs(q)`. -/
def pyAbs (q : ℚ) : ℚ := if q < 0 then -q else q

/-- Python floor division `a // b`. -/
def pyDiv (a b : Int) : Int := Int.fdiv a b

/-- Model of `GridLayout` from `src/layout/grid.py`: canvas size, the name → area
dictionary and the root area.  Note that `__init__` stores the root only in
`self.root`, never in `self.areas`. -/
structure GridLayout where
  width : Int
  height : Int
  areas : List (String × GridArea)
  root : GridArea
deriving DecidableEq

/-- Model of `GridLayout.__init__(width, height)`. -/
def GridLayout.init (width height : Int) : GridLayout :=
  { width := width
    height := height
    areas := []
    root := { name := "root", rect := ⟨0, 0, width, height⟩, children := [] } }

/-- Model of `GridLayout.add_area(name, rect, parent)`.  The area is inserted into the
dictionary *before* the parent is looked up, so a missing parent leaves the
insertion behind; the returned layout reflects the state at raise time.
Python's `if parent:` treats `None` and the empty string as falsy. -/
def GridLayout.add_area (g : GridLayout) (name : String) (rect : Rect)
    (parent : Option String) : GridLayout × Except PyErr GridArea :=
  if rect.x < 0 ∨ rect.y < 0 ∨ rect.x + rect.w > g.width ∨
      rect.y + rect.h > g.height then
    (g, .error (.valueError ("Area " ++ name ++ " extends beyond display dimensions")))
  else
    let area : GridArea := { name := name, rect := rect, children := [] }
    let g1 : GridLayout := { g with areas := dictInsert g.areas name area }
    match parent with
    | some p =>
      if p = "" then
        ({ g1 with root := { g1.root with children := g1.root.children ++ [name] } },
          .ok area)
      else if (dictGet? g1.areas p).isNone then
        (g1, .error (.valueError ("Parent area " ++ p ++ " does not exist")))
      else
        let areas2 := dictUpdate g1.areas p
          (fun a => { a with children := a.children ++ [name] })
        ({ g1 with areas := areas2 }, .ok area)
    | none =>
      ({ g1 with root := { g1.root with children := g1.root.children ++ [name] } },
        .ok area)

/-- Model of `GridLayout.get_area(name)`. -/
def GridLayout.get_area (g : GridLayout) (name : String) : Except PyErr GridArea :=
  match dictGet? g.areas name with
  | none => .error (.keyError ("Grid area " ++ name ++ " does not exist"))
  | some a => .ok a

/-- The body of the `for i in range(count)` loop of
`GridLayout.split_area`, carrying the running `current_pos` and the reversed
accumulator of created areas.  On the first failing iteration the layout
mutated so far is returned with the error. -/
def GridLayout.splitGo (g : GridLayout) (area_name direction : String)
    (count : Nat) (x y width height : Int) (sizes : List ℚ) :
    List Nat → Int → List GridArea → GridLayout × Except PyErr (List GridArea)
  | [], _, acc => (g, .ok acc.reverse)
  | i :: rest, pos, acc =>
    if direction = "horizontal" then
      let seg : Int :=
        if i = count - 1 then width - pos else pyInt ((width : ℚ) * sizes.getD i 0)
      match g.add_area (area_name ++ "_" ++ toString i) ⟨x + pos, y, seg, height⟩
          (some area_name) with
      | (g', .ok a) =>
        splitGo g' area_name direction count x y width height sizes rest (pos + seg)
          (a :: acc)
      | (g', .error e) => (g', .error e)
    else if direction = "vertical" then
      let seg : Int :=
        if i = count - 1 then height - pos else pyInt ((height : ℚ) * sizes.getD i 0)
      match g.add_area (area_name ++ "_" ++ toString i) ⟨x, y + pos, width, seg⟩
          (some area_name) with
      | (g', .ok a) =>
        splitGo g' area_name direction count x y width height sizes rest (pos + seg)
          (a :: acc)
      | (g', .error e) => (g', .error e)
    else
      (g, .error (.valueError ("Direction must be horizontal or vertical, got " ++ direction)))

/-- Model of `GridLayout.split_area(area_name, direction, count, sizes)`.  Python's
`if sizes:` treats both `None` and the empty list as "not provided", in which
case `sizes = [1.0 / count] * count` (a `ZeroDivisionError` when
`count == 0`). -/
def GridLayout.split_area (g : GridLayout) (area_name direction : String)
    (count : Nat) (sizes : Option (List ℚ)) :
    GridLayout × Except PyErr (List GridArea) :=
  match g.get_area area_name with
  | .error e => (g, .error e)
  | .ok area =>
    match sizes with
    | some s =>
      if s = [] then
        if count = 0 then (g, .error .zeroDivisionError)
        else
          g.splitGo area_name direction count area.rect.x area.rect.y area.rect.w
            area.rect.h (List.replicate count ((1 : ℚ) / count)) (List.range count) 0 []
      else if s.length ≠ count then
        (g, .error (.valueError ("Expected " ++ toString count ++ " sizes, got " ++
          toString s.length)))
      else if pyAbs (s.sum - 1) > 1 / 1000 then
        (g, .error (.valueError "Sizes must sum to 1.0"))
      else
        g.splitGo area_name direction count area.rect.x area.rect.y area.rect.w
          area.rect.h s (List.range count) 0 []
    | none =>
      if count = 0 then (g, .error .zeroDivisionError)
      else
        g.splitGo area_name direction count area.rect.x area.rect.y area.rect.w
          area.rect.h (List.replicate count ((1 : ℚ) / count)) (List.range count) 0 []

/-- Pure recomputation of the `(current_pos, segment_extent)` pairs assigned
by the split loop along the split axis. -/
def childIvls (count : Nat) (extent : Int) (sizes : List ℚ) :
    List Nat → Int → List (Int × Int)
  | [], _ => []
  | i :: rest, pos =>
    (pos, if i = count - 1 then extent - pos else pyInt ((extent : ℚ) * sizes.getD i 0)) ::
      childIvls count extent sizes rest
        (pos + (if i = count - 1 then extent - pos else pyInt ((extent : ℚ) * sizes.getD i 0)))


/-! ### Containers (`src/layout/containers.py`) and the display compositor
(`src/display.py`).

A PIL font object is modelled by its name together with an optional
`getsize` width function (`none` models a font object without a `getsize`
attribute, which the code treats as width 0).  A drawing call on the PIL
`ImageDraw` object is recorded as a `DrawOp`; the buffer is the list of
operations issued since the last clear, in order (later operations
overpaint earlier ones).  A content provider is modelled by the outcome of
calling it this tick: `some v` for a returned value, `none` for a raised
exception. -/

structure PyFont where
  fname : String
  getsize : Option (String → Int)

/-- Width measurement: `font.getsize(text)[0] if hasattr(font, "getsize")
else 0`. -/
def textWidth (f : PyFont) (s : String) : Int :=
  match f.getsize with
  | some wf => wf s
  | none => 0

/-- One recorded call on the PIL `ImageDraw` object. -/
inductive DrawOp where
  | rectangle (x0 y0 x1 y1 : Int) (outline : Option Int) (fill : Option Int)
      (lineWidth : Int)
  | line (x0 y0 x1 y1 : Int) (fill : Int) (lineWidth : Int)
  | text (x y : Int) (s : String) (font : String) (fill : Int)
deriving DecidableEq

/-- The strings painted by a list of draw operations, in order. -/
def drawnTexts (ops : List DrawOp) : List String :=
  ops.filterMap (fun op =>
    match op with
    | .text _ _ s _ _ => some s
    | _ => none)

/-- Holds precisely for `draw.line` calls (the primitives the spec's
crossing-diagonal overlay would be drawn with). -/
def DrawOp.isLine (op : DrawOp) : Bool :=
  match op with
  | .line _ _ _ _ _ _ => true
  | _ => false

/-- The state shared by all `Container` subclasses
(`Container.__init__` / `set_position` / `show` / `hide`). -/
structure ContainerBase where
  name : String
  x : Int
  y : Int
  width : Int
  height : Int
  visible : Bool
  debug : Bool
deriving DecidableEq

/-- The five container variants, each carrying its variant state.  Provider
callables are modelled by this tick's outcome (`none` = the call raises).
The `TextContainer.prefix` attribute is named `pfx` here. -/
inductive Container where
  | metric (base : ContainerBase) (icon_code : String) (provider : Option ℚ)
      (unit : String) (value : Option ℚ)
  | service (base : ContainerBase)
      (services : List (String × String × Option Bool))
      (statuses : List (String × Bool))
  | text (base : ContainerBase) (provider : Option String) (pfx : String)
      (text : String) (alignment : String)
  | icon (base : ContainerBase) (icon_code : String)
  | divider (base : ContainerBase) (orientation : String)
deriving DecidableEq

def Container.base : Container → ContainerBase
  | .metric b _ _ _ _ => b
  | .service b _ _ => b
  | .text b _ _ _ _ => b
  | .icon b _ => b
  | .divider b _ => b

def Container.name (c : Container) : String := c.base.name

def Container.withBase : Container → ContainerBase → Container
  | .metric _ ic p u v, b => .metric b ic p u v
  | .service _ sv st, b => .service b sv st
  | .text _ p pf t al, b => .text b p pf t al
  | .icon _ ic, b => .icon b ic
  | .divider _ o, b => .divider b o

/-- Model of `Container.set_position(x, y, width, height)`. -/
def Container.set_position (c : Container) (x y width height : Int) : Container :=
  c.withBase { c.base with x := x, y := y, width := width, height := height }

/-- Mutation of the `debug` attribute (`container.debug = True` in
`add_container`). -/
def Container.set_debug (c : Container) (d : Bool) : Container :=
  c.withBase { c.base with debug := d }

/-- Model of `Container.update()` for each variant.  Every variant absorbs a provider
exception: `MetricContainer` records `None`, `ServiceIconContainer` records
`False` per failed service, `TextContainer` records `"N/A"`; icons and
dividers have no provider. -/
def Container.update : Container → Container
  | .metric b ic p u _ => .metric b ic p u p
  | .service b sv _ =>
    .service b sv (sv.map (fun e => (e.1, e.2.2.getD false)))
  | .text b p pf _ al => .text b p pf (p.getD "N/A") al
  | .icon b ic => .icon b ic
  | .divider b o => .divider b o

/-- The debug-outline drawing done by `Container.render` (the abstract base
implementation, invoked via `super().render(...)` by every variant). -/
def baseRenderOps (b : ContainerBase) : List DrawOp :=
  if b.debug && b.visible then
    [.rectangle b.x b.y (b.x + b.width) (b.y + b.height) (some 1) none 1]
  else []

/-- Model of `MetricContainer.render`: formats the value (`int`-truncated when the
unit is `%`), then draws the icon centered in the upper part and the value
text centered below.  Python's f-string rendering of a non-`%` numeric value
is modelled exactly for integral values (the only case the claims use). -/
def numRepr (q : ℚ) : String :=
  if q.den = 1 then toString q.num else toString q.num ++ "/" ++ toString q.den

def metricRender (b : ContainerBase) (icon_code : String) (unit : String)
    (value : Option ℚ) (fonts : List (String × PyFont)) : List DrawOp :=
  if !b.visible then []
  else
    baseRenderOps b ++
    (match
      (if (dictGet? fonts "metric_icon").isNone ∨
          (dictGet? fonts "metric_text").isNone then
        match (dictGet? fonts "small_icon").orElse (fun _ => dictGet? fonts "icon"),
            (dictGet? fonts "small").orElse (fun _ => dictGet? fonts "text") with
        | some fi, some ft => some (fi, ft)
        | _, _ => none
      else
        match dictGet? fonts "metric_icon", dictGet? fonts "metric_text" with
        | some fi, some ft => some (fi, ft)
        | _, _ => none) with
    | none => []
    | some (icon_font, text_font) =>
      let value0 : ℚ := value.getD 0
      let value_text : String :=
        if unit = "%" then toString (pyInt value0) ++ unit
        else numRepr value0 ++ unit
      let text_width := textWidth text_font value_text
      let text_x := b.x + pyDiv (b.width - text_width) 2
      let text_y := b.y + pyDiv b.height 2 - 2
      let icon_width := textWidth icon_font icon_code
      let icon_x := b.x + pyDiv (b.width - icon_width) 2
      let icon_y := b.y + pyDiv b.height 3 - 6
      [.text icon_x icon_y icon_code icon_font.fname 1,
        .text text_x (text_y + 2) value_text text_font.fname 1])

/-- The vertical-stack loop of `ServiceIconContainer.render`: each icon is
drawn at the centered `base_x`, stepping `current_y` by icon size plus
padding; an inactive service is drawn with the inactive color 0 instead of
the active color 1. -/
def serviceOps (fname : String) (statuses : List (String × Bool))
    (base_x : Int) (padding : Int) :
    List (String × String × Option Bool) → Int → List DrawOp
  | [], _ => []
  | e :: rest, current_y =>
    .text base_x current_y e.2.1 fname
        (if (dictGet? statuses e.1).getD false then 1 else 0) ::
      serviceOps fname statuses base_x padding rest (current_y + 6 + padding)

/-- Model of `ServiceIconContainer.render`: icons are stacked in a single centered
vertical column (`icon_size = 6`), inactive services are dimmed (fill 0),
and no strike-through/diagonal overlay is drawn (the source comments this
choice explicitly). -/
def serviceRender (b : ContainerBase)
    (services : List (String × String × Option Bool))
    (statuses : List (String × Bool)) (fonts : List (String × PyFont)) :
    List DrawOp :=
  if !b.visible then []
  else
    baseRenderOps b ++
    (match dictGet? fonts "small_icon" with
    | none => []
    | some icon_font =>
      let service_count : Int := services.length
      let total_height := service_count * 6
      let padding := if total_height < b.height then
          pyDiv (b.height - total_height) (service_count + 1)
        else 0
      let base_x := b.x + pyDiv (b.width - 6) 2
      serviceOps icon_font.fname statuses base_x padding services (b.y + padding))

/-- Model of `TextContainer.render`: a hard-coded `max_chars = 15`; an over-long text
is truncated to 13 characters plus `".."` *before* the prefix is prepended;
the empty string is replaced by `"N/A"`. -/
def textRender (b : ContainerBase) (pfx : String) (txt : String)
    (alignment : String) (fonts : List (String × PyFont)) : List DrawOp :=
  if !b.visible then []
  else
    baseRenderOps b ++
    (match dictGet? fonts "text" with
    | none => []
    | some tf =>
      let text_font := match dictGet? fonts "small" with
        | some f => f
        | none => tf
      let t0 := if txt = "" then "N/A" else txt
      let t1 := if t0.length > 15 then t0.take (15 - 2) ++ ".." else t0
      let display_text := pfx ++ t1
      let y := b.y + pyDiv (b.height - 8) 2
      let text_width := textWidth text_font display_text
      let x := if alignment = "left" then b.x + 2
        else if alignment = "center" then b.x + pyDiv (b.width - text_width) 2
        else b.x + b.width - text_width - 2
      [.text x y display_text text_font.fname 1])

/-- Model of `IconContainer.render` (`icon_size = 6`). -/
def iconRender (b : ContainerBase) (icon_code : String)
    (fonts : List (String × PyFont)) : List DrawOp :=
  if !b.visible then []
  else
    baseRenderOps b ++
    (match
      (match dictGet? fonts "metric_icon" with
      | none => dictGet? fonts "small_icon"
      | some f => some f) with
    | none => []
    | some icon_font =>
      let x := b.x + pyDiv (b.width - 6) 2
      let y := b.y + pyDiv (b.height - 6) 2
      [.text x y icon_code icon_font.fname 1])

/-- Model of `DividerContainer.render` (`line_color = 1`, `line_width = 1`). -/
def dividerRender (b : ContainerBase) (orientation : String) : List DrawOp :=
  if !b.visible then []
  else
    baseRenderOps b ++
    (if orientation = "horizontal" then
      [.line b.x (b.y + pyDiv b.height 2) (b.x + b.width) (b.y + pyDiv b.height 2) 1 1]
    else
      [.line (b.x + pyDiv b.width 2) b.y (b.x + pyDiv b.width 2) (b.y + b.height) 1 1])

/-- Variant dispatch of `render(draw, fonts)`. -/
def Container.render (c : Container) (fonts : List (String × PyFont)) :
    List DrawOp :=
  match c with
  | .metric b ic _ u v => metricRender b ic u v fonts
  | .service b sv st => serviceRender b sv st fonts
  | .text b _ pf t al => textRender b pf t al fonts
  | .icon b ic => iconRender b ic fonts
  | .divider b o => dividerRender b o

/-- The `draw.rectangle((0, 0, width, height), fill=0)` issued by
`OLEDDisplay.clear`. -/
def clearOp (width height : Int) : DrawOp :=
  .rectangle 0 0 width height none (some 0) 1

/-- Model of `OLEDDisplay` from `src/display.py`, restricted to the rendering state the
claims concern: the canvas size, the `areas` dictionary used by
`add_container`, the font dictionary, the container registry (a Python dict,
so an insertion-ordered association list) and the draw operations issued to
the PIL buffer since the last clear. -/
structure OLEDDisplay where
  width : Int
  height : Int
  areas : List (String × GridArea)
  fonts : List (String × PyFont)
  containers : List (String × Container)
  buffer : List DrawOp

/-- Model of `OLEDDisplay.add_container(container, area_name)`: raises `KeyError` when
the area name is not in the display's `areas` dictionary; otherwise positions
the container on the area's rectangle, sets `debug = True` and registers it
under `container.name` (replacing any previous entry in place). -/
def OLEDDisplay.add_container (d : OLEDDisplay) (c : Container)
    (area_name : String) : OLEDDisplay × Except PyErr Unit :=
  match dictGet? d.areas area_name with
  | none => (d, .error (.keyError
      ("Grid area " ++ area_name ++ " does not exist in areas dictionary")))
  | some area =>
    let c1 := (c.set_position area.rect.x area.rect.y area.rect.w
      area.rect.h).set_debug true
    ({ d with containers := dictInsert d.containers c1.name c1 }, .ok ())

/-- Model of `OLEDDisplay.remove_container(name)`. -/
def OLEDDisplay.remove_container (d : OLEDDisplay) (name : String) :
    OLEDDisplay :=
  { d with containers := d.containers.filter (fun e => e.1 ≠ name) }

/-- Model of `OLEDDisplay.update_containers`: calls `update()` on every registered
container in registration order. -/
def OLEDDisplay.update_containers (d : OLEDDisplay) : OLEDDisplay :=
  { d with containers := d.containers.map (fun e => (e.1, e.2.update)) }

/-- Model of `OLEDDisplay.clear`. -/
def OLEDDisplay.clear (d : OLEDDisplay) : OLEDDisplay :=
  { d with buffer := [clearOp d.width d.height] }

/-- Model of `OLEDDisplay.render_containers`: renders every registered container in
registration order, appending its draw operations to the buffer. -/
def OLEDDisplay.render_containers (d : OLEDDisplay) : OLEDDisplay :=
  { d with buffer := d.buffer ++
      (d.containers.map (fun e => e.2.render d.fonts)).join }

/-- Model of `OLEDDisplay.update` (one compositor tick): update every container,
clear the buffer, render every container in registration order, flush.  The
flush to the physical device is external; each container's `update` absorbs
its provider's exception, so the surrounding try/except never fires in the
modelled core and the method returns `True`. -/
def OLEDDisplay.update (d : OLEDDisplay) : OLEDDisplay × Bool :=
  (d.update_containers.clear.render_containers, true)


/-! ### Dictionary lemmas -/

theorem dictGet?_dictInsert_self {α : Type} (d : List (String × α)) (k : String)
    (v : α) : dictGet? (dictInsert d k v) k = some v := by
  induction d with
  | nil => simp [dictInsert, dictGet?]
  | cons p rest ih =>
    by_cases h : p.1 = k <;> simp [dictInsert, dictGet?, h, ih]

theorem dictGet?_dictInsert_ne {α : Type} (d : List (String × α)) (k k' : String)
    (v : α) (h : k' ≠ k) : dictGet? (dictInsert d k v) k' = dictGet? d k' := by
  have hne : k ≠ k' := Ne.symm h
  induction d with
  | nil => simp [dictInsert, dictGet?, hne]
  | cons p rest ih =>
    by_cases hp : p.1 = k
    · simp [dictInsert, dictGet?, hp, hne]
    · by_cases hp' : p.1 = k' <;> simp [dictInsert, dictGet?, hp, hp', ih, h, hne]

theorem dictInsert_keys_of_mem {α : Type} (d : List (String × α)) (k : String)
    (v : α) (h : (dictGet? d k).isSome) :
    (dictInsert d k v).map Prod.fst = d.map Prod.fst := by
  induction d with
  | nil => simp [dictGet?] at h
  | cons p rest ih =>
    by_cases hp : p.1 = k
    · simp [dictInsert, hp]
    · simp [dictGet?, hp] at h
      simp [dictInsert, hp, ih h]

theorem dictUpdate_keys {α : Type} (d : List (String × α)) (k : String)
    (f : α → α) : (dictUpdate d k f).map Prod.fst = d.map Prod.fst := by
  induction d with
  | nil => simp [dictUpdate]
  | cons p rest ih =>
    by_cases hp : p.1 = k <;> simp [dictUpdate, hp, ih]

theorem dictGet?_dictUpdate_ne {α : Type} (d : List (String × α)) (k k' : String)
    (f : α → α) (h : k' ≠ k) :
    dictGet? (dictUpdate d k f) k' = dictGet? d k' := by
  have hne : k ≠ k' := Ne.symm h
  induction d with
  | nil => simp [dictUpdate]
  | cons p rest ih =>
    by_cases hp : p.1 = k
    · simp [dictUpdate, dictGet?, hp, hne]
    · by_cases hp' : p.1 = k' <;> simp [dictUpdate, dictGet?, hp, hp', ih, h, hne]

/-! ### C2: the root area spans the canvas but `get_area("root")` fails -/

/-- C2: for a freshly constructed `GridLayout(128, 32)` the root area does
span `(0, 0, 128, 32)` under the name `root`, but `get_area("root")` raises
`KeyError` instead of returning it, because `__init__` stores the root only
in `self.root` and never inserts it into `self.areas`.  This contradicts the
claim (and the repository's own tests and `display.py`, which call
`split_area("root", ...)`). -/
theorem getArea_root_raises_despite_root_spanning_canvas :
    (GridLayout.init 128 32).root.name = "root" ∧
    (GridLayout.init 128 32).root.rect = ⟨0, 0, 128, 32⟩ ∧
    (GridLayout.init 128 32).get_area "root" =
      .error (.keyError "Grid area root does not exist") ∧
    ((GridLayout.init 128 32).split_area "root" "horizontal" 2
        (some [4/5, 1/5])).2 =
      .error (.keyError "Grid area root does not exist") := by
  decide

/-! ### C7: duplicate names in `add_area` -/

/-- C7 counterexample: registering a second area under the already-present
name `a` does not raise a duplicate-name error — `add_area` succeeds and the
lookup table now maps `a` to the new rectangle. -/
theorem add_area_duplicate_name_not_rejected :
    (((GridLayout.init 128 64).add_area "a" ⟨0, 0, 10, 10⟩ none).1.add_area
        "a" ⟨5, 5, 20, 20⟩ none).2 = .ok ⟨"a", ⟨5, 5, 20, 20⟩, []⟩ ∧
    dictGet? (((GridLayout.init 128 64).add_area "a" ⟨0, 0, 10, 10⟩ none).1.add_area
        "a" ⟨5, 5, 20, 20⟩ none).1.areas "a" = some ⟨"a", ⟨5, 5, 20, 20⟩, []⟩ ∧
    (⟨"a", ⟨5, 5, 20, 20⟩, []⟩ : GridArea) ≠ ⟨"a", ⟨0, 0, 10, 10⟩, []⟩ := by
  decide

/-- C7 amended: the method `add_area` with an already-registered name does not fail and
does not keep the old entry: it succeeds, silently overwrites the lookup-table
entry in place (key order unchanged) and returns the new area.  Name
uniqueness is not enforced at insertion. -/
theorem add_area_duplicate_name_replaces (g : GridLayout) (name : String)
    (rect : Rect) (parent : Option String)
    (hdup : (dictGet? g.areas name).isSome)
    (hb : ¬(rect.x < 0 ∨ rect.y < 0 ∨ rect.x + rect.w > g.width ∨
      rect.y + rect.h > g.height))
    (hpn : parent ≠ some name)
    (hpar : ∀ p, parent = some p → p ≠ "" → (dictGet? g.areas p).isSome) :
    ∃ g', g.add_area name rect parent = (g', .ok ⟨name, rect, []⟩) ∧
      g'.areas.map Prod.fst = g.areas.map Prod.fst ∧
      dictGet? g'.areas name = some ⟨name, rect, []⟩ := by
  unfold GridLayout.add_area
  rw [if_neg hb]
  match parent with
  | none =>
    refine ⟨_, rfl, ?_, ?_⟩
    · exact dictInsert_keys_of_mem _ _ _ hdup
    · exact dictGet?_dictInsert_self _ _ _
  | some p =>
    have hp : p ≠ name := fun hh => hpn (by rw [hh])
    dsimp only
    by_cases he : p = ""
    · simp only [he, if_pos rfl]
      refine ⟨_, rfl, ?_, ?_⟩
      · exact dictInsert_keys_of_mem _ _ _ hdup
      · exact dictGet?_dictInsert_self _ _ _
    · have hps : (dictGet? (dictInsert g.areas name ⟨name, rect, []⟩) p).isSome := by
        rw [dictGet?_dictInsert_ne _ _ _ _ hp]
        exact hpar p rfl he
      rw [if_neg he]
      have hnotNone : ¬ (dictGet? (dictInsert g.areas name
          ⟨name, rect, []⟩) p).isNone = true := by
        simp only [Option.isNone_iff_eq_none]
        intro hc
        rw [hc] at hps
        simp at hps
      rw [if_neg hnotNone]
      refine ⟨_, rfl, ?_, ?_⟩
      · rw [dictUpdate_keys, dictInsert_keys_of_mem _ _ _ hdup]
      · rw [dictGet?_dictUpdate_ne _ _ _ _ (Ne.symm hp), dictGet?_dictInsert_self]

/-- Witness for the amended C7 theorem at a concrete layout. -/
theorem add_area_duplicate_name_replaces_witness :
    ∃ g', ((GridLayout.init 128 64).add_area "a" ⟨0, 0, 10, 10⟩ none).1.add_area
        "a" ⟨5, 5, 20, 20⟩ none = (g', .ok ⟨"a", ⟨5, 5, 20, 20⟩, []⟩) ∧
      g'.areas.map Prod.fst =
        (((GridLayout.init 128 64).add_area "a" ⟨0, 0, 10, 10⟩ none).1).areas.map Prod.fst ∧
      dictGet? g'.areas "a" = some ⟨"a", ⟨5, 5, 20, 20⟩, []⟩ :=
  add_area_duplicate_name_replaces _ "a" ⟨5, 5, 20, 20⟩ none (by decide)
    (by decide) (by decide) (by decide)

/-! ### C10: failing `split_area` calls leave the layout unchanged -/

theorem splitGo_bad_direction (g : GridLayout) (nm dir : String) (count : Nat)
    (x y width height : Int) (sizes : List ℚ) (i : Nat) (rest : List Nat)
    (pos : Int) (acc : List GridArea)
    (hd1 : dir ≠ "horizontal") (hd2 : dir ≠ "vertical") :
    g.splitGo nm dir count x y width height sizes (i :: rest) pos acc =
      (g, .error (.valueError
        ("Direction must be horizontal or vertical, got " ++ dir))) := by
  unfold GridLayout.splitGo
  rw [if_neg hd1, if_neg hd2]

/-- C10: the method `split_area` is atomic on each of its own validation failures: when
the named area does not exist, or the provided sizes list has the wrong
length or does not sum to 1.0 within 0.001, or (after passing validation)
the direction string is unrecognized, the call raises and the returned
layout is exactly the input layout — no area is inserted and no child list
is extended. -/
theorem split_area_validation_failure_atomic (g : GridLayout) (nm dir : String)
    (count : Nat) (sizes : Option (List ℚ))
    (hfail :
      dictGet? g.areas nm = none ∨
      (∃ s, sizes = some s ∧ s ≠ [] ∧
        (s.length ≠ count ∨ pyAbs (s.sum - 1) > 1 / 1000)) ∨
      ((dictGet? g.areas nm).isSome ∧ 1 ≤ count ∧
        (∀ s, sizes = some s → s ≠ [] →
          (s.length = count ∧ ¬ pyAbs (s.sum - 1) > 1 / 1000)) ∧
        dir ≠ "horizontal" ∧ dir ≠ "vertical")) :
    ∃ e, g.split_area nm dir count sizes = (g, .error e) := by
  unfold GridLayout.split_area GridLayout.get_area
  rcases hfail with hnone | ⟨s, hs, hne, hbad⟩ | ⟨hsome, hcount, hvalid, hd1, hd2⟩
  · rw [hnone]
    exact ⟨_, rfl⟩
  · subst hs
    rcases hget : dictGet? g.areas nm with _ | a
    · exact ⟨_, rfl⟩
    · dsimp only
      rw [if_neg hne]
      rcases hbad with hlen | hsum
      · rw [if_pos hlen]
        exact ⟨_, rfl⟩
      · by_cases hlen : s.length ≠ count
        · rw [if_pos hlen]
          exact ⟨_, rfl⟩
        · rw [if_neg hlen, if_pos hsum]
          exact ⟨_, rfl⟩
  · rcases hget : dictGet? g.areas nm with _ | a
    · rw [hget] at hsome
      simp at hsome
    · dsimp only
      obtain ⟨m, hm⟩ : ∃ m, count = m + 1 :=
        ⟨count - 1, (Nat.succ_pred_eq_of_pos hcount).symm⟩
      have hrange : List.range count = 0 :: List.range' 1 m := by
        rw [List.range_eq_range', hm]
        rfl
      rcases sizes with _ | s
      · rw [if_neg (by omega : ¬ count = 0), hrange,
          splitGo_bad_direction _ _ _ _ _ _ _ _ _ _ _ _ _ hd1 hd2]
        exact ⟨_, rfl⟩
      · dsimp only
        by_cases hse : s = []
        · rw [if_pos hse, if_neg (by omega : ¬ count = 0), hrange,
            splitGo_bad_direction _ _ _ _ _ _ _ _ _ _ _ _ _ hd1 hd2]
          exact ⟨_, rfl⟩
        · obtain ⟨hlen, hsum⟩ := hvalid s rfl hse
          rw [if_neg hse, if_neg (by omega : ¬ s.length ≠ count), if_neg hsum,
            hrange, splitGo_bad_direction _ _ _ _ _ _ _ _ _ _ _ _ _ hd1 hd2]
          exact ⟨_, rfl⟩

/-- Witness for the C10 theorem: splitting a missing area name on a concrete
layout fails and returns the layout unchanged. -/
theorem split_area_validation_failure_atomic_witness :
    ∃ e, (GridLayout.init 128 32).split_area "missing" "horizontal" 2
        (some [1/2, 1/2]) = (GridLayout.init 128 32, .error e) :=
  split_area_validation_failure_atomic (GridLayout.init 128 32) "missing"
    "horizontal" 2 (some [1/2, 1/2]) (Or.inl (by decide))

/-! ### Split-loop geometry -/

theorem get_area_ok_iff (g : GridLayout) (nm : String) (a : GridArea) :
    g.get_area nm = .ok a ↔ dictGet? g.areas nm = some a := by
  unfold GridLayout.get_area
  rcases h : dictGet? g.areas nm with _ | b <;> simp

theorem pyInt_eq_floor (q : ℚ) (h : 0 ≤ q) : pyInt q = ⌊q⌋ := by
  unfold pyInt
  rw [if_pos h]

theorem add_area_ok_area (g g' : GridLayout) (name : String) (rect : Rect)
    (parent : Option String) (a : GridArea)
    (h : g.add_area name rect parent = (g', .ok a)) :
    a = ⟨name, rect, []⟩ := by
  unfold GridLayout.add_area at h
  by_cases hb : (rect.x < 0 ∨ rect.y < 0 ∨ rect.x + rect.w > g.width ∨
      rect.y + rect.h > g.height)
  · rw [if_pos hb] at h
    simp only [Prod.mk.injEq] at h
    exact Except.noConfusion h.2
  · rw [if_neg hb] at h
    rcases parent with _ | p
    · dsimp only at h
      simp only [Prod.mk.injEq, Except.ok.injEq] at h
      exact h.2.symm
    · dsimp only at h
      by_cases hp : p = ""
      · rw [if_pos hp] at h
        simp only [Prod.mk.injEq, Except.ok.injEq] at h
        exact h.2.symm
      · rw [if_neg hp] at h
        by_cases hn : (dictGet? (dictInsert g.areas name ⟨name, rect, []⟩) p).isNone = true
        · rw [if_pos hn] at h
          simp only [Prod.mk.injEq] at h
          exact Except.noConfusion h.2
        · rw [if_neg hn] at h
          simp only [Prod.mk.injEq, Except.ok.injEq] at h
          exact h.2.symm

theorem splitGo_ok_dir (g g' : GridLayout) (nm dir : String) (count : Nat)
    (x y width height : Int) (sizes : List ℚ) (i : Nat) (rest : List Nat)
    (pos : Int) (acc out : List GridArea)
    (h : g.splitGo nm dir count x y width height sizes (i :: rest) pos acc =
      (g', .ok out)) :
    dir = "horizontal" ∨ dir = "vertical" := by
  by_cases h1 : dir = "horizontal"
  · exact Or.inl h1
  · by_cases h2 : dir = "vertical"
    · exact Or.inr h2
    · rw [splitGo_bad_direction _ _ _ _ _ _ _ _ _ _ _ _ _ h1 h2] at h
      simp only [Prod.mk.injEq] at h
      cases h.2

theorem splitGo_ok_rects_h (g g' : GridLayout) (nm : String) (count : Nat)
    (x y width height : Int) (sizes : List ℚ) :
    ∀ (idxs : List Nat) (pos : Int) (acc out : List GridArea),
    g.splitGo nm "horizontal" count x y width height sizes idxs pos acc =
      (g', .ok out) →
    out.map GridArea.rect = acc.reverse.map GridArea.rect ++
      (childIvls count width sizes idxs pos).map
        (fun pr => (⟨x + pr.1, y, pr.2, height⟩ : Rect)) := by
  intro idxs
  induction idxs generalizing g with
  | nil =>
    intro pos acc out h
    unfold GridLayout.splitGo at h
    simp only [Prod.mk.injEq, Except.ok.injEq] at h
    rw [← h.2]
    simp [childIvls]
  | cons i rest ih =>
    intro pos acc out h
    unfold GridLayout.splitGo at h
    rw [if_pos rfl] at h
    dsimp only at h
    rcases hadd : g.add_area (nm ++ "_" ++ toString i)
        ⟨x + pos, y, if i = count - 1 then width - pos
          else pyInt ((width : ℚ) * sizes.getD i 0), height⟩ (some nm) with ⟨g2, r⟩
    rw [hadd] at h
    rcases r with e | a
    · simp only [Prod.mk.injEq] at h
      exact Except.noConfusion h.2
    · have ha := add_area_ok_area _ _ _ _ _ _ hadd
      have := ih g2 _ _ _ h
      rw [this, ha]
      simp [childIvls, List.append_assoc]

theorem splitGo_ok_rects_v (g g' : GridLayout) (nm : String) (count : Nat)
    (x y width height : Int) (sizes : List ℚ) :
    ∀ (idxs : List Nat) (pos : Int) (acc out : List GridArea),
    g.splitGo nm "vertical" count x y width height sizes idxs pos acc =
      (g', .ok out) →
    out.map GridArea.rect = acc.reverse.map GridArea.rect ++
      (childIvls count height sizes idxs pos).map
        (fun pr => (⟨x, y + pr.1, width, pr.2⟩ : Rect)) := by
  intro idxs
  induction idxs generalizing g with
  | nil =>
    intro pos acc out h
    unfold GridLayout.splitGo at h
    simp only [Prod.mk.injEq, Except.ok.injEq] at h
    rw [← h.2]
    simp [childIvls]
  | cons i rest ih =>
    intro pos acc out h
    unfold GridLayout.splitGo at h
    rw [if_neg (by decide : ¬ ("vertical" : String) = "horizontal"), if_pos rfl] at h
    dsimp only at h
    rcases hadd : g.add_area (nm ++ "_" ++ toString i)
        ⟨x, y + pos, width, if i = count - 1 then height - pos
          else pyInt ((height : ℚ) * sizes.getD i 0)⟩ (some nm) with ⟨g2, r⟩
    rw [hadd] at h
    rcases r with e | a
    · simp only [Prod.mk.injEq] at h
      exact Except.noConfusion h.2
    · have ha := add_area_ok_area _ _ _ _ _ _ hadd
      have := ih g2 _ _ _ h
      rw [this, ha]
      simp [childIvls, List.append_assoc]

/-- One-dimensional tiling of the split loop: starting at offset `pos` with
the invariant that `pos` plus the worth of the remaining non-last sizes fits
in `extent`, the produced `(offset, segment)` intervals exactly cover
`[pos, extent)` and are pairwise disjoint. -/
theorem childIvls_cover (count : Nat) (extent : Int) (sizes : List ℚ)
    (hext : 0 ≤ extent) (hsz : ∀ q ∈ sizes, 0 ≤ q)
    (hlen : sizes.length = count) :
    ∀ (n i : Nat) (pos : Int), 1 ≤ n → i + n = count →
      (pos : ℚ) + (extent : ℚ) * ((sizes.drop i).take (count - 1 - i)).sum ≤
        (extent : ℚ) →
      (∀ u : Int, (pos ≤ u ∧ u < extent) ↔
        ∃ pr ∈ childIvls count extent sizes (List.range' i n) pos,
          pr.1 ≤ u ∧ u < pr.1 + pr.2) ∧
      List.Pairwise (fun a b : Int × Int => ∀ u : Int,
        ¬(a.1 ≤ u ∧ u < a.1 + a.2 ∧ b.1 ≤ u ∧ u < b.1 + b.2))
        (childIvls count extent sizes (List.range' i n) pos) := by
  intro n
  induction n with
  | zero => intro i pos h1; exact absurd h1 (by omega)
  | succ m ih =>
    intro i pos h1 hic hbound
    rcases Nat.eq_zero_or_pos m with hm0 | hm1
    · subst hm0
      have hi : i = count - 1 := by omega
      have hr : List.range' i 1 = [i] := rfl
      rw [hr]
      simp only [childIvls, if_pos hi]
      constructor
      · intro u
        simp only [List.mem_singleton, List.mem_cons, List.not_mem_nil, or_false]
        constructor
        · intro hu
          exact ⟨(pos, extent - pos), rfl, by omega⟩
        · rintro ⟨pr, rfl, hpr⟩
          omega
      · exact List.pairwise_cons.mpr ⟨by simp, List.Pairwise.nil⟩
    · have hic1 : i < count - 1 := by omega
      have hilen : i < sizes.length := by omega
      have hgetD : sizes.getD i 0 = sizes.get ⟨i, hilen⟩ := List.getD_eq_get _ _ hilen
      have hsi0 : 0 ≤ sizes.get ⟨i, hilen⟩ := hsz _ (List.get_mem sizes i hilen)
      have hine : ¬ (i = count - 1) := by omega
      have hprod : (0 : ℚ) ≤ (extent : ℚ) * sizes.get ⟨i, hilen⟩ :=
        mul_nonneg (by exact_mod_cast hext) hsi0
      have hd_floor : pyInt ((extent : ℚ) * sizes.getD i 0) =
          ⌊(extent : ℚ) * sizes.get ⟨i, hilen⟩⌋ := by
        rw [hgetD]
        exact pyInt_eq_floor _ hprod
      have hd0 : 0 ≤ pyInt ((extent : ℚ) * sizes.getD i 0) := by
        rw [hd_floor]
        exact Int.floor_nonneg.mpr hprod
      have hdle : ((pyInt ((extent : ℚ) * sizes.getD i 0) : Int) : ℚ) ≤
          (extent : ℚ) * sizes.get ⟨i, hilen⟩ := by
        rw [hd_floor]
        exact Int.floor_le _
      have hdrop : sizes.drop i = sizes.get ⟨i, hilen⟩ :: sizes.drop (i + 1) :=
        List.drop_eq_get_cons hilen
      have htake : ((sizes.drop i).take (count - 1 - i)).sum =
          sizes.get ⟨i, hilen⟩ +
            ((sizes.drop (i + 1)).take (count - 1 - (i + 1))).sum := by
        rw [hdrop]
        have hc : count - 1 - i = (count - 1 - (i + 1)) + 1 := by omega
        rw [hc, List.take_succ_cons, List.sum_cons]
      have hsum2 : 0 ≤ ((sizes.drop (i + 1)).take (count - 1 - (i + 1))).sum := by
        refine List.sum_nonneg ?_
        intro q hq
        exact hsz q (List.mem_of_mem_drop (List.mem_of_mem_take hq))
      rw [htake, mul_add] at hbound
      have hbound' : (((pos + pyInt ((extent : ℚ) * sizes.getD i 0)) : Int) : ℚ) +
          (extent : ℚ) * ((sizes.drop (i + 1)).take (count - 1 - (i + 1))).sum ≤
          (extent : ℚ) := by
        push_cast
        linarith [hdle]
      obtain ⟨ihcov, ihpw⟩ := ih (i + 1) (pos + pyInt ((extent : ℚ) * sizes.getD i 0))
        (by omega) (by omega) hbound'
      have hposd : pos + pyInt ((extent : ℚ) * sizes.getD i 0) ≤ extent := by
        have hme : (0 : ℚ) ≤ (extent : ℚ) *
            ((sizes.drop (i + 1)).take (count - 1 - (i + 1))).sum :=
          mul_nonneg (by exact_mod_cast hext) hsum2
        have : (((pos + pyInt ((extent : ℚ) * sizes.getD i 0)) : Int) : ℚ) ≤
            (extent : ℚ) := by linarith
        exact_mod_cast this
      have hr : List.range' i (m + 1) = i :: List.range' (i + 1) m := rfl
      rw [hr]
      simp only [childIvls, if_neg hine]
      constructor
      · intro u
        constructor
        · rintro ⟨hpu, hue⟩
          by_cases hcase : u < pos + pyInt ((extent : ℚ) * sizes.getD i 0)
          · exact ⟨(pos, pyInt ((extent : ℚ) * sizes.getD i 0)),
              List.mem_cons_self _ _, by omega⟩
          · obtain ⟨pr, hmem, hpr⟩ := (ihcov u).mp ⟨by omega, hue⟩
            exact ⟨pr, List.mem_cons_of_mem _ hmem, hpr⟩
        · rintro ⟨pr, hmem, hpr⟩
          rcases List.mem_cons.mp hmem with rfl | htail
          · omega
          · have := (ihcov u).mpr ⟨pr, htail, hpr⟩
            omega
      · refine List.pairwise_cons.mpr ⟨?_, ihpw⟩
        intro b hb u hcon
        obtain ⟨hh1, hh2, hh3, hh4⟩ := hcon
        have := (ihcov u).mpr ⟨b, hb, hh3, hh4⟩
        omega

theorem contains_point_eq_true_iff (a : GridArea) (u v : Int) :
    a.contains_point u v = true ↔
      (a.rect.x ≤ u ∧ u < a.rect.x + a.rect.w ∧
        a.rect.y ≤ v ∧ v < a.rect.y + a.rect.h) := by
  unfold GridArea.contains_point
  simp [Bool.and_eq_true, decide_eq_true_eq, and_assoc]

theorem tile_assembly_h (x y w h : Int) (ivls : List (Int × Int))
    (out : List GridArea)
    (hmap : out.map GridArea.rect =
      ivls.map (fun pr => (⟨x + pr.1, y, pr.2, h⟩ : Rect)))
    (hcov : ∀ u' : Int, (0 ≤ u' ∧ u' < w) ↔
      ∃ pr ∈ ivls, pr.1 ≤ u' ∧ u' < pr.1 + pr.2)
    (hpw : List.Pairwise (fun a b : Int × Int => ∀ u : Int,
      ¬(a.1 ≤ u ∧ u < a.1 + a.2 ∧ b.1 ≤ u ∧ u < b.1 + b.2)) ivls) :
    (∀ u v : Int, (x ≤ u ∧ u < x + w ∧ y ≤ v ∧ v < y + h) ↔
      ∃ a ∈ out, a.contains_point u v = true) ∧
    List.Pairwise (fun a b : GridArea => ∀ u v : Int,
      ¬(a.contains_point u v = true ∧ b.contains_point u v = true)) out := by
  constructor
  · intro u v
    constructor
    · rintro ⟨h1, h2, h3, h4⟩
      obtain ⟨pr, hmem, hpr1, hpr2⟩ := (hcov (u - x)).mp ⟨by omega, by omega⟩
      have hrm : (⟨x + pr.1, y, pr.2, h⟩ : Rect) ∈ out.map GridArea.rect := by
        rw [hmap]
        exact List.mem_map_of_mem _ hmem
      obtain ⟨a, ha, haeq⟩ := List.mem_map.mp hrm
      refine ⟨a, ha, ?_⟩
      rw [contains_point_eq_true_iff, haeq]
      dsimp only
      omega
    · rintro ⟨a, ha, hac⟩
      rw [contains_point_eq_true_iff] at hac
      have hrm : a.rect ∈ ivls.map (fun pr => (⟨x + pr.1, y, pr.2, h⟩ : Rect)) := by
        rw [← hmap]
        exact List.mem_map_of_mem _ ha
      obtain ⟨pr, hpr, heq⟩ := List.mem_map.mp hrm
      rw [← heq] at hac
      dsimp only at hac
      have := (hcov (u - x)).mpr ⟨pr, hpr, by omega, by omega⟩
      omega
  · have hpwS : (out.map GridArea.rect).Pairwise
        (fun r1 r2 : Rect => ∀ u v : Int,
          ¬((r1.x ≤ u ∧ u < r1.x + r1.w ∧ r1.y ≤ v ∧ v < r1.y + r1.h) ∧
            (r2.x ≤ u ∧ u < r2.x + r2.w ∧ r2.y ≤ v ∧ v < r2.y + r2.h))) := by
      rw [hmap, List.pairwise_map]
      refine hpw.imp ?_
      intro p q hD u v hcon
      dsimp only at hcon
      obtain ⟨⟨a1, a2, a3, a4⟩, b1, b2, b3, b4⟩ := hcon
      exact hD (u - x) ⟨by omega, by omega, by omega, by omega⟩
    rw [List.pairwise_map] at hpwS
    refine hpwS.imp ?_
    intro a b hS u v hcon
    rw [contains_point_eq_true_iff, contains_point_eq_true_iff] at hcon
    exact hS u v hcon

theorem tile_assembly_v (x y w h : Int) (ivls : List (Int × Int))
    (out : List GridArea)
    (hmap : out.map GridArea.rect =
      ivls.map (fun pr => (⟨x, y + pr.1, w, pr.2⟩ : Rect)))
    (hcov : ∀ v' : Int, (0 ≤ v' ∧ v' < h) ↔
      ∃ pr ∈ ivls, pr.1 ≤ v' ∧ v' < pr.1 + pr.2)
    (hpw : List.Pairwise (fun a b : Int × Int => ∀ u : Int,
      ¬(a.1 ≤ u ∧ u < a.1 + a.2 ∧ b.1 ≤ u ∧ u < b.1 + b.2)) ivls) :
    (∀ u v : Int, (x ≤ u ∧ u < x + w ∧ y ≤ v ∧ v < y + h) ↔
      ∃ a ∈ out, a.contains_point u v = true) ∧
    List.Pairwise (fun a b : GridArea => ∀ u v : Int,
      ¬(a.contains_point u v = true ∧ b.contains_point u v = true)) out := by
  constructor
  · intro u v
    constructor
    · rintro ⟨h1, h2, h3, h4⟩
      obtain ⟨pr, hmem, hpr1, hpr2⟩ := (hcov (v - y)).mp ⟨by omega, by omega⟩
      have hrm : (⟨x, y + pr.1, w, pr.2⟩ : Rect) ∈ out.map GridArea.rect := by
        rw [hmap]
        exact List.mem_map_of_mem _ hmem
      obtain ⟨a, ha, haeq⟩ := List.mem_map.mp hrm
      refine ⟨a, ha, ?_⟩
      rw [contains_point_eq_true_iff, haeq]
      dsimp only
      omega
    · rintro ⟨a, ha, hac⟩
      rw [contains_point_eq_true_iff] at hac
      have hrm : a.rect ∈ ivls.map (fun pr => (⟨x, y + pr.1, w, pr.2⟩ : Rect)) := by
        rw [← hmap]
        exact List.mem_map_of_mem _ ha
      obtain ⟨pr, hpr, heq⟩ := List.mem_map.mp hrm
      rw [← heq] at hac
      dsimp only at hac
      have := (hcov (v - y)).mpr ⟨pr, hpr, by omega, by omega⟩
      omega
  · have hpwS : (out.map GridArea.rect).Pairwise
        (fun r1 r2 : Rect => ∀ u v : Int,
          ¬((r1.x ≤ u ∧ u < r1.x + r1.w ∧ r1.y ≤ v ∧ v < r1.y + r1.h) ∧
            (r2.x ≤ u ∧ u < r2.x + r2.w ∧ r2.y ≤ v ∧ v < r2.y + r2.h))) := by
      rw [hmap, List.pairwise_map]
      refine hpw.imp ?_
      intro p q hD u v hcon
      dsimp only at hcon
      obtain ⟨⟨a1, a2, a3, a4⟩, b1, b2, b3, b4⟩ := hcon
      exact hD (v - y) ⟨by omega, by omega, by omega, by omega⟩
    rw [List.pairwise_map] at hpwS
    refine hpwS.imp ?_
    intro a b hS u v hcon
    rw [contains_point_eq_true_iff, contains_point_eq_true_iff] at hcon
    exact hS u v hcon

/-- Successful `split_area` runs always go through `splitGo` on an effective
sizes list of length `count` that inherits nonnegativity and a sum bound from
the provided one (the equal-share default has sum exactly 1). -/
theorem split_area_ok_elim (g g' : GridLayout) (nm dir : String) (count : Nat)
    (sizes : Option (List ℚ)) (area : GridArea) (out : List GridArea)
    (hlup : dictGet? g.areas nm = some area)
    (hsz : ∀ q ∈ sizes.getD [], 0 ≤ q)
    (hsum : (sizes.getD []).sum ≤ 1)
    (hok : g.split_area nm dir count sizes = (g', .ok out)) :
    ∃ s : List ℚ, s.length = count ∧ 1 ≤ count ∧ (∀ q ∈ s, 0 ≤ q) ∧ s.sum ≤ 1 ∧
      g.splitGo nm dir count area.rect.x area.rect.y area.rect.w area.rect.h s
        (List.range count) 0 [] = (g', .ok out) := by
  have hrepl : ∀ hc : 1 ≤ count, (List.replicate count ((1 : ℚ) / count)).length = count ∧
      (∀ q ∈ List.replicate count ((1 : ℚ) / count), 0 ≤ q) ∧
      (List.replicate count ((1 : ℚ) / count)).sum ≤ 1 := by
    intro hc
    refine ⟨List.length_replicate _ _, ?_, ?_⟩
    · intro q hq
      rw [List.eq_of_mem_replicate hq]
      positivity
    · rw [List.sum_replicate, nsmul_eq_mul]
      rw [mul_one_div, div_self]
      have : (0 : ℚ) < (count : ℚ) := by exact_mod_cast hc
      exact this.ne'
  unfold GridLayout.split_area at hok
  rw [(get_area_ok_iff g nm area).mpr hlup] at hok
  rcases sizes with _ | s
  · dsimp only at hok
    by_cases hc : count = 0
    · rw [if_pos hc] at hok
      simp only [Prod.mk.injEq] at hok
      exact Except.noConfusion hok.2
    · rw [if_neg hc] at hok
      have hc1 : 1 ≤ count := by omega
      obtain ⟨hl, hn, hs⟩ := hrepl hc1
      exact ⟨_, hl, hc1, hn, hs, hok⟩
  · dsimp only at hok
    by_cases hse : s = []
    · rw [if_pos hse] at hok
      by_cases hc : count = 0
      · rw [if_pos hc] at hok
        simp only [Prod.mk.injEq] at hok
        exact Except.noConfusion hok.2
      · rw [if_neg hc] at hok
        have hc1 : 1 ≤ count := by omega
        obtain ⟨hl, hn, hs⟩ := hrepl hc1
        exact ⟨_, hl, hc1, hn, hs, hok⟩
    · rw [if_neg hse] at hok
      by_cases hlen : s.length ≠ count
      · rw [if_pos hlen] at hok
        simp only [Prod.mk.injEq] at hok
        exact Except.noConfusion hok.2
      · rw [if_neg hlen] at hok
        by_cases hsv : pyAbs (s.sum - 1) > 1 / 1000
        · rw [if_pos hsv] at hok
          simp only [Prod.mk.injEq] at hok
          exact Except.noConfusion hok.2
        · rw [if_neg hsv] at hok
          have hc1 : 1 ≤ count := by
            rcases Nat.eq_zero_or_pos count with h0 | h1
            · exfalso
              apply hse
              have : s.length = 0 := by omega
              exact List.length_eq_zero.mp this
            · exact h1
          exact ⟨s, by omega, hc1, hsz, hsum, hok⟩

/-! ### C1: tiling -/

/-- C1 counterexample: the only validation `split_area` performs on a
provided sizes list is its length and that its sum is within 0.001 of 1.
The vector `[3/2, -1/2]` passes that validation, yet splitting a 64×64 area
with it yields a first child `(0, 0, 96, 64)` that sticks out of the parent:
the point `(70, 0)` lies in a child but not in the parent, so the union of
the children is not the parent's rectangle.  The claim as stated is false. -/
theorem split_area_tiling_violated :
    (((GridLayout.init 128 64).add_area "a" ⟨0, 0, 64, 64⟩ none).1.split_area
        "a" "horizontal" 2 (some [3/2, -1/2])).2 =
      .ok [⟨"a_0", ⟨0, 0, 96, 64⟩, []⟩, ⟨"a_1", ⟨96, 0, -32, 64⟩, []⟩] ∧
    (⟨"a_0", ⟨0, 0, 96, 64⟩, []⟩ : GridArea).contains_point 70 0 = true ∧
    ((GridLayout.init 128 64).add_area "a" ⟨0, 0, 64, 64⟩ none).2 =
      .ok ⟨"a", ⟨0, 0, 64, 64⟩, []⟩ ∧
    (⟨"a", ⟨0, 0, 64, 64⟩, []⟩ : GridArea).contains_point 70 0 = false := by
  decide

/-- C1 amended: for every `split_area` call that succeeds on an existing
area with nonnegative extents, where every provided size fraction is
nonnegative and the provided fractions sum to at most 1 (the equal-share
default always satisfies this), the returned children are pairwise disjoint
and their union is exactly the parent's rectangle, for both split axes. -/
theorem split_area_children_tile_parent (g g' : GridLayout) (nm dir : String)
    (count : Nat) (sizes : Option (List ℚ)) (area : GridArea)
    (out : List GridArea)
    (hget : g.get_area nm = .ok area)
    (hw : 0 ≤ area.rect.w) (hh : 0 ≤ area.rect.h)
    (hsz : ∀ q ∈ sizes.getD [], 0 ≤ q)
    (hsum : (sizes.getD []).sum ≤ 1)
    (hok : g.split_area nm dir count sizes = (g', .ok out)) :
    (∀ u v : Int, area.contains_point u v = true ↔
      ∃ a ∈ out, a.contains_point u v = true) ∧
    List.Pairwise (fun a b : GridArea => ∀ u v : Int,
      ¬(a.contains_point u v = true ∧ b.contains_point u v = true)) out := by
  have hlup := (get_area_ok_iff g nm area).mp hget
  obtain ⟨s, hslen, hc1, hsnn, hssum, hgo⟩ :=
    split_area_ok_elim g g' nm dir count sizes area out hlup hsz hsum hok
  obtain ⟨m, rfl⟩ : ∃ m, count = m + 1 := ⟨count - 1, by omega⟩
  have hcons : List.range (m + 1) = 0 :: List.range' 1 m := by
    rw [List.range_eq_range']
    rfl
  have hdir : dir = "horizontal" ∨ dir = "vertical" := by
    rw [hcons] at hgo
    exact splitGo_ok_dir _ _ _ _ _ _ _ _ _ _ _ _ _ _ _ hgo
  have hbound0 : ∀ extent : Int, 0 ≤ extent →
      (((0 : Int) : ℚ) + (extent : ℚ) * ((s.drop 0).take (m + 1 - 1 - 0)).sum ≤
        (extent : ℚ)) := by
    intro extent hext
    have hdn : 0 ≤ (s.drop m).sum :=
      List.sum_nonneg (fun q hq => hsnn q (List.mem_of_mem_drop hq))
    have htds := List.sum_take_add_sum_drop s m
    have h1 : (s.take m).sum ≤ 1 := by linarith
    have h2 : (extent : ℚ) * (s.take m).sum ≤ (extent : ℚ) * 1 :=
      mul_le_mul_of_nonneg_left h1 (by exact_mod_cast hext)
    simpa using h2.trans_eq (mul_one _)
  have hrange : List.range (m + 1) = List.range' 0 (m + 1) :=
    List.range_eq_range' (m + 1)
  rcases hdir with rfl | rfl
  · have hmap := splitGo_ok_rects_h g g' nm (m + 1) area.rect.x area.rect.y
      area.rect.w area.rect.h s (List.range' 0 (m + 1)) 0 [] out
      (by rw [← hrange]; exact hgo)
    simp only [List.reverse_nil, List.map_nil, List.nil_append] at hmap
    obtain ⟨hcov, hpw⟩ := childIvls_cover (m + 1) area.rect.w s hw hsnn hslen
      (m + 1) 0 0 (by omega) (by omega) (hbound0 area.rect.w hw)
    obtain ⟨hiff, hpw'⟩ := tile_assembly_h area.rect.x area.rect.y area.rect.w
      area.rect.h _ out hmap (fun u' => hcov u') hpw
    refine ⟨?_, hpw'⟩
    intro u v
    rw [contains_point_eq_true_iff]
    exact hiff u v
  · have hmap := splitGo_ok_rects_v g g' nm (m + 1) area.rect.x area.rect.y
      area.rect.w area.rect.h s (List.range' 0 (m + 1)) 0 [] out
      (by rw [← hrange]; exact hgo)
    simp only [List.reverse_nil, List.map_nil, List.nil_append] at hmap
    obtain ⟨hcov, hpw⟩ := childIvls_cover (m + 1) area.rect.h s hh hsnn hslen
      (m + 1) 0 0 (by omega) (by omega) (hbound0 area.rect.h hh)
    obtain ⟨hiff, hpw'⟩ := tile_assembly_v area.rect.x area.rect.y area.rect.w
      area.rect.h _ out hmap (fun v' => hcov v') hpw
    refine ⟨?_, hpw'⟩
    intro u v
    rw [contains_point_eq_true_iff]
    exact hiff u v

/-- Witness for the amended C1 theorem: an equal-share horizontal split of a
64×64 area into two 32-wide children that exactly tile it. -/
theorem split_area_children_tile_parent_witness :
    (∀ u v : Int, (⟨"a", ⟨0, 0, 64, 64⟩, []⟩ : GridArea).contains_point u v = true ↔
      ∃ a ∈ [(⟨"a_0", ⟨0, 0, 32, 64⟩, []⟩ : GridArea), ⟨"a_1", ⟨32, 0, 32, 64⟩, []⟩],
        a.contains_point u v = true) ∧
    List.Pairwise (fun a b : GridArea => ∀ u v : Int,
      ¬(a.contains_point u v = true ∧ b.contains_point u v = true))
      [(⟨"a_0", ⟨0, 0, 32, 64⟩, []⟩ : GridArea), ⟨"a_1", ⟨32, 0, 32, 64⟩, []⟩] :=
  split_area_children_tile_parent
    ((GridLayout.init 128 64).add_area "a" ⟨0, 0, 64, 64⟩ none).1
    ((((GridLayout.init 128 64).add_area "a" ⟨0, 0, 64, 64⟩ none).1).split_area
      "a" "horizontal" 2 none).1
    "a" "horizontal" 2 none ⟨"a", ⟨0, 0, 64, 64⟩, []⟩
    [⟨"a_0", ⟨0, 0, 32, 64⟩, []⟩, ⟨"a_1", ⟨32, 0, 32, 64⟩, []⟩]
    (by decide) (by decide) (by decide) (by decide) (by decide) (by decide)

/-! ### C6: rounding law -/

/-- Closed form of the segment extents assigned by the split loop: index `k`
below `count - 1` gets `pyInt (extent * sizes[k])`, and index `count - 1`
gets the remainder of the extent after all earlier allocations. -/
theorem childIvls_map_snd (count : Nat) (extent : Int) (sizes : List ℚ) :
    ∀ (n i : Nat) (pos : Int), i + n = count →
      (childIvls count extent sizes (List.range' i n) pos).map Prod.snd =
        (List.range' i n).map (fun k =>
          if k = count - 1 then
            extent - (pos + ((List.range' i (count - 1 - i)).map
              (fun j => pyInt ((extent : ℚ) * sizes.getD j 0))).sum)
          else pyInt ((extent : ℚ) * sizes.getD k 0)) := by
  intro n
  induction n with
  | zero => intro i pos _; rfl
  | succ m ih =>
    intro i pos hic
    have hr : List.range' i (m + 1) = i :: List.range' (i + 1) m := rfl
    rw [hr]
    by_cases hi : i = count - 1
    · have hm : m = 0 := by omega
      subst hm
      have hz : count - 1 - i = 0 := by omega
      simp only [childIvls, if_pos hi, List.map_cons, List.map_nil, hz,
        List.range'_zero, List.sum_nil]
      simp
    · have him : i < count - 1 := by omega
      simp only [childIvls, if_neg hi, List.map_cons]
      congr 1
      rw [ih (i + 1) (pos + pyInt ((extent : ℚ) * sizes.getD i 0)) (by omega)]
      apply List.map_congr_left
      intro k hk
      by_cases hkc : k = count - 1
      · rw [if_pos hkc, if_pos hkc]
        have hstep : count - 1 - i = (count - 1 - (i + 1)) + 1 := by omega
        have hsplit : List.range' i (count - 1 - i) =
            i :: List.range' (i + 1) (count - 1 - (i + 1)) := by
          rw [hstep]
          rfl
        rw [hsplit, List.map_cons, List.sum_cons]
        omega
      · rw [if_neg hkc, if_neg hkc]

/-- C6: rounding law.  For every successful `split_area` along the height of
an area with nonnegative height and an explicitly provided nonnegative sizes
list, child `k` for `k < count - 1` is `floor(parentHeight * sizes[k])`
pixels tall, and the last child absorbs exactly the remaining pixels of the
parent height (parent height minus the sum of all prior floored
allocations).  Instantiated at a 32-pixel-tall area with
`sizes = [0.85, 0.15]` this yields heights 27 and 5 (see the witness). -/
theorem split_area_rounding_law (g g' : GridLayout) (nm : String)
    (count : Nat) (s : List ℚ) (area : GridArea) (out : List GridArea)
    (hget : g.get_area nm = .ok area)
    (hh : 0 ≤ area.rect.h)
    (hne : s ≠ [])
    (hsz : ∀ q ∈ s, 0 ≤ q)
    (hok : g.split_area nm "vertical" count (some s) = (g', .ok out)) :
    out.map (fun a => a.rect.h) =
      (List.range count).map (fun k =>
        if k = count - 1 then
          area.rect.h - ((List.range (count - 1)).map
            (fun j => ⌊(area.rect.h : ℚ) * s.getD j 0⌋)).sum
        else ⌊(area.rect.h : ℚ) * s.getD k 0⌋) := by
  have hlup := (get_area_ok_iff g nm area).mp hget
  have hprod : ∀ j : Nat, (0 : ℚ) ≤ (area.rect.h : ℚ) * s.getD j 0 := by
    intro j
    by_cases hj : j < s.length
    · rw [List.getD_eq_get _ _ hj]
      exact mul_nonneg (by exact_mod_cast hh) (hsz _ (List.get_mem s j hj))
    · rw [List.getD_eq_default _ _ (by omega)]
      simp
  have hfloor : ∀ j : Nat, pyInt ((area.rect.h : ℚ) * s.getD j 0) =
      ⌊(area.rect.h : ℚ) * s.getD j 0⌋ := fun j => pyInt_eq_floor _ (hprod j)
  unfold GridLayout.split_area at hok
  rw [(get_area_ok_iff g nm area).mpr hlup] at hok
  dsimp only at hok
  rw [if_neg hne] at hok
  by_cases hlen : s.length ≠ count
  · rw [if_pos hlen] at hok
    simp only [Prod.mk.injEq] at hok
    exact Except.noConfusion hok.2
  · rw [if_neg hlen] at hok
    by_cases hsv : pyAbs (s.sum - 1) > 1 / 1000
    · rw [if_pos hsv] at hok
      simp only [Prod.mk.injEq] at hok
      exact Except.noConfusion hok.2
    · rw [if_neg hsv] at hok
      have hrange : List.range count = List.range' 0 count :=
        List.range_eq_range' count
      have hmap := splitGo_ok_rects_v g g' nm count area.rect.x area.rect.y
        area.rect.w area.rect.h s (List.range' 0 count) 0 [] out
        (by rw [← hrange]; exact hok)
      simp only [List.reverse_nil, List.map_nil, List.nil_append] at hmap
      have hsnd := childIvls_map_snd count area.rect.h s count 0 0 (by omega)
      have h1 : out.map (fun a => a.rect.h) =
          (out.map GridArea.rect).map Rect.h := by
        rw [List.map_map]
        rfl
      rw [h1, hmap, List.map_map]
      have h2 : (Rect.h ∘ fun pr : Int × Int => (⟨area.rect.x, area.rect.y + pr.1,
          area.rect.w, pr.2⟩ : Rect)) = Prod.snd := rfl
      rw [h2, hsnd, ← hrange]
      apply List.map_congr_left
      intro k _
      by_cases hkc : k = count - 1
      · rw [if_pos hkc, if_pos hkc]
        have h3 : List.range' 0 (count - 1 - 0) = List.range (count - 1) := by
          rw [Nat.sub_zero, List.range_eq_range' (count - 1)]
        rw [h3]
        have h4 : (List.range (count - 1)).map
            (fun j => pyInt ((area.rect.h : ℚ) * s.getD j 0)) =
            (List.range (count - 1)).map
              (fun j => ⌊(area.rect.h : ℚ) * s.getD j 0⌋) :=
          List.map_congr_left (fun j _ => hfloor j)
        rw [h4]
        omega
      · rw [if_neg hkc, if_neg hkc]
        exact hfloor k

/-- Witness for the rounding law: splitting a 32-pixel-tall area along its
height with sizes `[0.85, 0.15]` yields child heights 27 and 5. -/
theorem split_area_rounding_law_witness :
    ([(⟨"a_0", ⟨0, 0, 128, 27⟩, []⟩ : GridArea), ⟨"a_1", ⟨0, 27, 128, 5⟩, []⟩].map
      (fun a => a.rect.h) =
      (List.range 2).map (fun k =>
        if k = 2 - 1 then
          (32 : Int) - ((List.range (2 - 1)).map
            (fun j => ⌊(32 : ℚ) * [(17 : ℚ)/20, 3/20].getD j 0⌋)).sum
        else ⌊(32 : ℚ) * [(17 : ℚ)/20, 3/20].getD k 0⌋)) ∧
    (List.range 2).map (fun k =>
      if k = 2 - 1 then
        (32 : Int) - ((List.range (2 - 1)).map
          (fun j => ⌊(32 : ℚ) * [(17 : ℚ)/20, 3/20].getD j 0⌋)).sum
      else ⌊(32 : ℚ) * [(17 : ℚ)/20, 3/20].getD k 0⌋) = [27, 5] := by
  constructor
  · exact split_area_rounding_law
      ((GridLayout.init 128 32).add_area "a" ⟨0, 0, 128, 32⟩ none).1
      ((((GridLayout.init 128 32).add_area "a" ⟨0, 0, 128, 32⟩ none).1).split_area
        "a" "vertical" 2 (some [17/20, 3/20])).1
      "a" 2 [17/20, 3/20] ⟨"a", ⟨0, 0, 128, 32⟩, []⟩
      [⟨"a_0", ⟨0, 0, 128, 27⟩, []⟩, ⟨"a_1", ⟨0, 27, 128, 5⟩, []⟩]
      (by decide) (by decide) (by decide) (by decide) (by decide)
  · decide

theorem container_positioned_name (c : Container) (x y w h : Int) :
    ((c.set_position x y w h).set_debug true).name = c.name := by
  cases c <;> rfl

/-! ### C3: re-registering a container does not move its paint order -/

/-- C3 counterexample: with containers registered in order `a`, `b`,
re-registering a new container named `a` succeeds and replaces the entry,
but the registry key order — which is exactly the paint order used by
`render_containers` — is still `[a, b]`: the re-registered container is
painted first, not last, so on overlap the pixels of `b` win, not those of
the re-registered `a`. -/
theorem add_container_rereg_not_painted_last :
    (OLEDDisplay.add_container
      ⟨128, 32, [("hdr", ⟨"hdr", ⟨0, 0, 128, 16⟩, []⟩)], [],
        [("a", .text ⟨"a", 0, 0, 128, 16, true, true⟩ (some "one") "" "one" "left"),
         ("b", .text ⟨"b", 0, 16, 128, 16, true, true⟩ (some "two") "" "two" "left")],
        []⟩
      (.text ⟨"a", 0, 0, 0, 0, true, false⟩ (some "three") "" "three" "left")
      "hdr").2 = .ok () ∧
    ((OLEDDisplay.add_container
      ⟨128, 32, [("hdr", ⟨"hdr", ⟨0, 0, 128, 16⟩, []⟩)], [],
        [("a", .text ⟨"a", 0, 0, 128, 16, true, true⟩ (some "one") "" "one" "left"),
         ("b", .text ⟨"b", 0, 16, 128, 16, true, true⟩ (some "two") "" "two" "left")],
        []⟩
      (.text ⟨"a", 0, 0, 0, 0, true, false⟩ (some "three") "" "three" "left")
      "hdr").1.containers.map Prod.fst = ["a", "b"]) ∧
    (["a", "b"].getLast? = some "b" ∧ "b" ≠ "a") := by
  decide

/-- C3 amended: the method `add_container` with an already-registered container name
resolves the area, replaces the prior registry entry with the repositioned,
debug-enabled container, and keeps the registry key order — hence the paint
order — unchanged: the re-registered container keeps its original paint
position instead of moving to last. -/
theorem add_container_rereg_replaces_in_place (d : OLEDDisplay)
    (c : Container) (area_name : String) (area : GridArea)
    (harea : dictGet? d.areas area_name = some area)
    (hmem : (dictGet? d.containers c.name).isSome) :
    ∃ d', d.add_container c area_name = (d', .ok ()) ∧
      d'.containers.map Prod.fst = d.containers.map Prod.fst ∧
      dictGet? d'.containers c.name =
        some ((c.set_position area.rect.x area.rect.y area.rect.w
          area.rect.h).set_debug true) := by
  unfold OLEDDisplay.add_container
  rw [harea]
  dsimp only
  refine ⟨_, rfl, ?_, ?_⟩
  · rw [container_positioned_name]
    exact dictInsert_keys_of_mem _ _ _ hmem
  · rw [container_positioned_name]
    exact dictGet?_dictInsert_self _ _ _

/-- Witness for the amended C3 theorem at a concrete registry. -/
theorem add_container_rereg_replaces_in_place_witness :
    ∃ d', OLEDDisplay.add_container
        ⟨128, 32, [("hdr", ⟨"hdr", ⟨0, 0, 128, 16⟩, []⟩)], [],
          [("a", .text ⟨"a", 0, 0, 128, 16, true, true⟩ (some "one") "" "one" "left"),
           ("b", .text ⟨"b", 0, 16, 128, 16, true, true⟩ (some "two") "" "two" "left")],
          []⟩
        (.text ⟨"a", 0, 0, 0, 0, true, false⟩ (some "three") "" "three" "left")
        "hdr" = (d', .ok ()) ∧
      d'.containers.map Prod.fst =
        [("a", Container.text ⟨"a", 0, 0, 128, 16, true, true⟩ (some "one") "" "one" "left"),
         ("b", Container.text ⟨"b", 0, 16, 128, 16, true, true⟩ (some "two") "" "two" "left")].map
          Prod.fst ∧
      dictGet? d'.containers
          (Container.text ⟨"a", 0, 0, 0, 0, true, false⟩ (some "three") "" "three" "left").name =
        some (((Container.text ⟨"a", 0, 0, 0, 0, true, false⟩ (some "three") "" "three"
          "left").set_position 0 0 128 16).set_debug true) :=
  add_container_rereg_replaces_in_place _ _ "hdr" ⟨"hdr", ⟨0, 0, 128, 16⟩, []⟩
    (by decide) (by decide)

/-! ### C4: a failed metric renders `0%`, not `N/A` -/

theorem drawnTexts_append (a b : List DrawOp) :
    drawnTexts (a ++ b) = drawnTexts a ++ drawnTexts b :=
  List.filterMap_append _ _ _

theorem drawnTexts_base (b : ContainerBase) :
    drawnTexts (baseRenderOps b) = [] := by
  unfold baseRenderOps
  split_ifs <;> rfl

/-- C4 counterexample: a `MetricContainer` (unit `%`) whose provider raised
on the most recent `update()` records the sentinel `None`, and the next
render draws the texts `["I", "0%"]` — the icon and a formatted zero — and
never the literal `N/A`: render substitutes `0` for the sentinel
(`value = self.value if self.value is not None else 0`). -/
theorem metric_render_sentinel_draws_zero_not_na :
    drawnTexts ((Container.update (.metric ⟨"cpu", 0, 0, 42, 32, true, false⟩
        "I" none "%" (some 0))).render
      [("metric_icon", ⟨"metric_icon", some (fun _ => 0)⟩),
       ("metric_text", ⟨"metric_text", some (fun _ => 0)⟩)]) = ["I", "0%"] ∧
    ¬ ("N/A" ∈ drawnTexts ((Container.update (.metric ⟨"cpu", 0, 0, 42, 32, true, false⟩
        "I" none "%" (some 0))).render
      [("metric_icon", ⟨"metric_icon", some (fun _ => 0)⟩),
       ("metric_text", ⟨"metric_text", some (fun _ => 0)⟩)])) := by
  decide

/-- C4 amended: every visible `MetricContainer` with unit `%` whose stored
value is the failure sentinel renders the icon followed by the text `0%` in
place of the value (never `N/A`), whenever the metric fonts are present. -/
theorem metric_render_sentinel_formats_zero (b : ContainerBase) (ic : String)
    (p : Option ℚ) (fonts : List (String × PyFont)) (fi ft : PyFont)
    (hvis : b.visible = true)
    (hfi : dictGet? fonts "metric_icon" = some fi)
    (hft : dictGet? fonts "metric_text" = some ft) :
    drawnTexts ((Container.metric b ic p "%" none).render fonts) = [ic, "0%"] := by
  have hz : toString (pyInt ((0 : ℚ))) ++ "%" = "0%" := by decide
  simp only [Container.render, metricRender, hvis, Bool.not_true,
    Bool.false_eq_true, if_false, hfi, hft, Option.isNone_some, or_self,
    if_neg, Option.getD_none, drawnTexts_append, drawnTexts_base,
    List.nil_append]
  simp only [drawnTexts, List.filterMap_cons, List.filterMap_nil]
  rw [if_pos trivial, hz]

/-- Witness for the amended C4 theorem. -/
theorem metric_render_sentinel_formats_zero_witness :
    drawnTexts ((Container.metric ⟨"cpu", 0, 0, 42, 32, true, false⟩
        "J" (some 5) "%" none).render
      [("metric_icon", ⟨"metric_icon", some (fun _ => 0)⟩),
       ("metric_text", ⟨"metric_text", some (fun _ => 0)⟩)]) = ["J", "0%"] :=
  metric_render_sentinel_formats_zero ⟨"cpu", 0, 0, 42, 32, true, false⟩ "J"
    (some 5) _ ⟨"metric_icon", some (fun _ => 0)⟩ ⟨"metric_text", some (fun _ => 0)⟩
    rfl rfl rfl

/-! ### C5: a tick with one failing provider -/

/-- C5: a compositor tick in which one registered metric container's
provider raises does not raise itself: `update` returns `True`, every other
registered container is updated and its render output appears in the buffer
in registration order exactly as usual, and the failing container is left
holding the `None` sentinel (its own render output is still emitted,
formatted from the sentinel). -/
theorem tick_with_failing_provider_isolates (d : OLEDDisplay)
    (pre post : List (String × Container)) (nm : String) (b : ContainerBase)
    (ic u : String) (v : Option ℚ)
    (hc : d.containers = pre ++ (nm, .metric b ic none u v) :: post) :
    ∃ d' : OLEDDisplay, d.update = (d', true) ∧
      d'.containers = pre.map (fun e => (e.1, e.2.update)) ++
        (nm, .metric b ic none u none) ::
          post.map (fun e => (e.1, e.2.update)) ∧
      d'.buffer = clearOp d.width d.height ::
        ((pre.map (fun e => (e.1, e.2.update))).map
          (fun e => e.2.render d.fonts)).join ++
        ((Container.metric b ic none u none).render d.fonts ++
          ((post.map (fun e => (e.1, e.2.update))).map
            (fun e => e.2.render d.fonts)).join) := by
  refine ⟨_, rfl, ?_, ?_⟩
  · simp only [OLEDDisplay.update, OLEDDisplay.update_containers,
      OLEDDisplay.clear, OLEDDisplay.render_containers, hc, List.map_append,
      List.map_cons]
    rfl
  · simp only [OLEDDisplay.update, OLEDDisplay.update_containers,
      OLEDDisplay.clear, OLEDDisplay.render_containers, hc, List.map_append,
      List.map_cons, List.join_append, List.flatten_cons]
    rfl

/-- Witness for the C5 theorem on a concrete two-container compositor whose
first (metric) container's provider fails while the second (text) container
is healthy. -/
theorem tick_with_failing_provider_isolates_witness :
    ∃ d' : OLEDDisplay,
      OLEDDisplay.update
        ⟨128, 32, [], [("text", ⟨"text", some (fun _ => 0)⟩)],
          [("cpu", .metric ⟨"cpu", 0, 0, 64, 32, true, false⟩ "I" none "%" (some 0)),
           ("host", .text ⟨"host", 0, 16, 128, 16, true, false⟩ (some "pi") "" "" "left")],
          []⟩ = (d', true) ∧
      d'.containers = [].map (fun e : String × Container => (e.1, e.2.update)) ++
        ("cpu", .metric ⟨"cpu", 0, 0, 64, 32, true, false⟩ "I" none "%" none) ::
          [("host", Container.text ⟨"host", 0, 16, 128, 16, true, false⟩
            (some "pi") "" "" "left")].map (fun e => (e.1, e.2.update)) ∧
      d'.buffer = clearOp 128 32 ::
        (((([] : List (String × Container)).map (fun e => (e.1, e.2.update))).map
          (fun e => e.2.render [("text", ⟨"text", some (fun _ => 0)⟩)])).join ++
        ((Container.metric ⟨"cpu", 0, 0, 64, 32, true, false⟩ "I" none "%" none).render
            [("text", ⟨"text", some (fun _ => 0)⟩)] ++
          (([("host", Container.text ⟨"host", 0, 16, 128, 16, true, false⟩
              (some "pi") "" "" "left")].map (fun e => (e.1, e.2.update))).map
            (fun e => e.2.render [("text", ⟨"text", some (fun _ => 0)⟩)])).join)) :=
  tick_with_failing_provider_isolates _ [] _ "cpu"
    ⟨"cpu", 0, 0, 64, 32, true, false⟩ "I" "%" (some 0) rfl

/-! ### C8: service icons render as a vertical stack without overlays -/

/-- C8 counterexample: a `ServiceIconContainer` holding 3 services (the
second inactive) renders three icon glyphs at the *same* x coordinate — a
single centered vertical column, not a 2×2 grid — the inactive service is
drawn with the inactive fill 0 instead of receiving an overlay, and the
render output contains no line operations at all, so no crossing diagonal
overlay is drawn. -/
theorem service_render_three_vertical_no_overlay :
    (Container.update (.service ⟨"svc", 100, 0, 28, 32, true, false⟩
        [("docker", "D", some true), ("ceph", "C", some false),
         ("k8s", "K", some true)] [])).render
      [("small_icon", ⟨"small_icon", some (fun _ => 0)⟩)] =
      [.text 111 3 "D" "small_icon" 1, .text 111 12 "C" "small_icon" 0,
       .text 111 21 "K" "small_icon" 1] ∧
    ([DrawOp.text 111 3 "D" "small_icon" 1, .text 111 12 "C" "small_icon" 0,
      .text 111 21 "K" "small_icon" 1].all (fun op => !op.isLine)) = true := by
  decide

/-- C8 amended: for every visible 3-service container (distinct service
names, debug off) with the small icon font present, the post-update render
is exactly three glyph draws in one centered vertical column with even
padding, where each service is filled with 1 when its provider returned
`True` and with the inactive color 0 when it returned `False` or raised; no
line (overlay) operations are emitted. -/
theorem service_render_single_column_no_overlay (b : ContainerBase)
    (n1 n2 n3 i1 i2 i3 : String) (p1 p2 p3 : Option Bool)
    (st : List (String × Bool)) (fonts : List (String × PyFont)) (f : PyFont)
    (hvis : b.visible = true) (hdbg : b.debug = false)
    (hf : dictGet? fonts "small_icon" = some f)
    (h12 : n1 ≠ n2) (h13 : n1 ≠ n3) (h23 : n2 ≠ n3) :
    (Container.update (.service b [(n1, i1, p1), (n2, i2, p2), (n3, i3, p3)]
        st)).render fonts =
      [.text (b.x + pyDiv (b.width - 6) 2)
          (b.y + (if 18 < b.height then pyDiv (b.height - 18) 4 else 0))
          i1 f.fname (if p1.getD false then 1 else 0),
       .text (b.x + pyDiv (b.width - 6) 2)
          (b.y + (if 18 < b.height then pyDiv (b.height - 18) 4 else 0) + 6 +
            (if 18 < b.height then pyDiv (b.height - 18) 4 else 0))
          i2 f.fname (if p2.getD false then 1 else 0),
       .text (b.x + pyDiv (b.width - 6) 2)
          (b.y + (if 18 < b.height then pyDiv (b.height - 18) 4 else 0) + 6 +
            (if 18 < b.height then pyDiv (b.height - 18) 4 else 0) + 6 +
            (if 18 < b.height then pyDiv (b.height - 18) 4 else 0))
          i3 f.fname (if p3.getD false then 1 else 0)] ∧
    ∀ op ∈ (Container.update (.service b [(n1, i1, p1), (n2, i2, p2),
        (n3, i3, p3)] st)).render fonts, op.isLine = false := by
  have heq : (Container.update (.service b [(n1, i1, p1), (n2, i2, p2),
      (n3, i3, p3)] st)).render fonts =
      [.text (b.x + pyDiv (b.width - 6) 2)
          (b.y + (if 18 < b.height then pyDiv (b.height - 18) 4 else 0))
          i1 f.fname (if p1.getD false then 1 else 0),
       .text (b.x + pyDiv (b.width - 6) 2)
          (b.y + (if 18 < b.height then pyDiv (b.height - 18) 4 else 0) + 6 +
            (if 18 < b.height then pyDiv (b.height - 18) 4 else 0))
          i2 f.fname (if p2.getD false then 1 else 0),
       .text (b.x + pyDiv (b.width - 6) 2)
          (b.y + (if 18 < b.height then pyDiv (b.height - 18) 4 else 0) + 6 +
            (if 18 < b.height then pyDiv (b.height - 18) 4 else 0) + 6 +
            (if 18 < b.height then pyDiv (b.height - 18) 4 else 0))
          i3 f.fname (if p3.getD false then 1 else 0)] := by
    simp only [Container.update, Container.render, serviceRender, serviceOps,
      hvis, Bool.not_true, Bool.false_eq_true, if_false, baseRenderOps, hdbg,
      Bool.false_and, hf, List.map_cons, List.map_nil, dictGet?, if_pos rfl,
      h12, h13, h23, if_neg, List.length_cons, List.length_nil,
      Option.getD_some, List.nil_append]
    norm_num
  refine ⟨heq, ?_⟩
  intro op hop
  rw [heq] at hop
  simp only [List.mem_cons, List.not_mem_nil, or_false] at hop
  rcases hop with rfl | rfl | rfl <;> rfl

/-- Witness for the amended C8 theorem at a concrete 28×32 container. -/
theorem service_render_single_column_no_overlay_witness :
    (Container.update (.service ⟨"svc2", 100, 0, 28, 32, true, false⟩
        [("a", "D", some true), ("b", "C", none), ("c", "K", some true)]
        [])).render [("small_icon", ⟨"small_icon", some (fun _ => 0)⟩)] =
      [.text 111 3 "D" "small_icon" 1, .text 111 12 "C" "small_icon" 0,
       .text 111 21 "K" "small_icon" 1] := by
  rw [(service_render_single_column_no_overlay ⟨"svc2", 100, 0, 28, 32, true, false⟩
    "a" "b" "c" "D" "C" "K" (some true) none (some true) []
    [("small_icon", ⟨"small_icon", some (fun _ => 0)⟩)]
    ⟨"small_icon", some (fun _ => 0)⟩ rfl rfl rfl (by decide) (by decide)
    (by decide)).1]
  decide

/-! ### C9: text truncation keeps 13 characters, not 12 -/

set_option maxHeartbeats 2000000 in
/-- C9 counterexample: a `TextContainer` with the hard-coded
`max_chars = 15`, empty prefix and stored text
`"this-is-a-very-long-hostname"` renders the string `"this-is-a-ver.."`
(13 kept characters plus `".."`, 15 characters total), not the
`"this-is-a-ve.."` stated by the claim. -/
theorem text_render_hostname_truncation :
    drawnTexts ((Container.text ⟨"host", 0, 0, 128, 16, true, false⟩
        (some "this-is-a-very-long-hostname") ""
        "this-is-a-very-long-hostname" "left").render
      [("text", ⟨"text", some (fun _ => 0)⟩)]) = ["this-is-a-ver.."] ∧
    ("this-is-a-ver.." : String) ≠ "this-is-a-ve.." := by
  decide

/-- C9 amended: for every visible `TextContainer` with empty prefix whose
stored text is longer than the hard-coded `max_chars = 15`, render draws the
first `15 − 2 = 13` characters of the text with `".."` appended (so the
hostname example renders `"this-is-a-ver.."`). -/
theorem text_render_truncates_to_13_plus_dots (b : ContainerBase)
    (p : Option String) (t al : String) (fonts : List (String × PyFont))
    (tf : PyFont)
    (hvis : b.visible = true)
    (htf : dictGet? fonts "text" = some tf)
    (hlen : 15 < t.length) :
    drawnTexts ((Container.text b p "" t al).render fonts) =
      [t.take 13 ++ ".."] := by
  have hne : ¬ (t = "") := by
    intro h
    subst h
    simp at hlen
  simp only [Container.render, textRender, hvis, Bool.not_true,
    Bool.false_eq_true, if_false, htf, drawnTexts_append, drawnTexts_base,
    List.nil_append, if_neg hne]
  have happ : ∀ s : String, ("" : String) ++ s = s := fun _ => rfl
  rcases hsm : dictGet? fonts "small" with _ | f <;>
    simp only [hsm, gt_iff_lt, hlen, if_true, drawnTexts,
      List.filterMap_cons, List.filterMap_nil, happ]

/-- Witness for the amended C9 theorem at the hostname input. -/
theorem text_render_truncates_to_13_plus_dots_witness :
    drawnTexts ((Container.text ⟨"host2", 0, 0, 128, 16, true, false⟩
        (some "this-is-a-very-long-hostname") ""
        "this-is-a-very-long-hostname" "center").render
      [("text", ⟨"text", some (fun _ => 0)⟩)]) =
      ["this-is-a-very-long-hostname".take 13 ++ ".."] ∧
    "this-is-a-very-long-hostname".take 13 ++ ".." = "this-is-a-ver.." := by
  constructor
  · exact text_render_truncates_to_13_plus_dots
      ⟨"host2", 0, 0, 128, 16, true, false⟩
      (some "this-is-a-very-long-hostname") "this-is-a-very-long-hostname"
      "center" [("text", ⟨"text", some (fun _ => 0)⟩)]
      ⟨"text", some (fun _ => 0)⟩ rfl rfl (by decide)
  · decide
